import Mathlib

/-!
# Verification of the httpy server against its specification

Shallow embedding of the httpy repository (UltraQbik/httpy):

* `main.py` — the `HTTPyServer` class: request reception (`_recv`), GET
  handling and encoding negotiation (`_handle_get`), method dispatch
  (`_client_handle`), response emission (`_send`), the accept loop
  (`_accept`) and the supervisor loop (`_server_handle`).
* `src/file_man.py` — path-map construction (`generate_path_map`) and the
  on-disk compression pass (`compress_path_map`).

Python byte strings of the `main.py` model are embedded as Lean `String`s
(the traffic is ASCII); the `file_man.py` model works on `List Char` web
paths and `List Nat` file bytes.  Socket and thread interaction is embedded
as pure functions over scripts of observed I/O events: each loop iteration
consumes one script element carrying the value the running flag would show
at that iteration's poll point together with the transport event the
iteration observes.

The classes `FileManager`, `Request`, `Response` and the status-code
constants are imported by `main.py` from modules that are not part of the
source tree; they are modelled from the specification where noted.
-/

namespace HTTPy

/-- Header values as they appear in the Python header dicts: strings for
ordinary headers, machine integers for `Content-Length`. -/
inductive HVal where
  | str (s : String)
  | nat (n : Nat)
deriving Repr, DecidableEq

/-- Python `dict` assignment `d[k] = v` on an association list: an existing
key is updated in place (its position kept), a new key is appended. -/
def setH : List (String × HVal) → String → HVal → List (String × HVal)
  | [], k, v => [(k, v)]
  | (k', v') :: rest, k, v =>
    if k' = k then (k, v) :: rest else (k', v') :: setH rest k v

/-- Modelled from the spec: a `ResourceVariant` of `src/fileman.py`
(missing from the source tree) — one encoded form of a resource with its
content type and payload. -/
structure Variant where
  filetype : String
  data : String
deriving Repr, DecidableEq

/-- Modelled from the spec: the variant's `size` attribute is the byte
length of its payload. -/
def Variant.size (v : Variant) : Nat := v.data.length

/-- Modelled from the spec: a `ResourceContainer` of `src/fileman.py`
(missing from the source tree) — the set of encoded variants of one
cataloged resource, with `compressed` marking compressibility. -/
structure Container where
  uncompressed : Variant
  brotli_compressed : Variant
  gzip_compressed : Variant
  compressed : Bool
deriving Repr, DecidableEq

/-- Modelled from the spec: a parsed `Request` of `src/structures.py`
(missing from the source tree).  `type` is the method token, `path` the
request path, and `acceptEncoding` the value `getattr(request,
"Accept-Encoding", "")` used by `_handle_get` (empty when the header is
absent). -/
structure Request where
  type : String
  path : String
  acceptEncoding : String
deriving Repr, DecidableEq

/-- Modelled from the spec: a `Response` of `src/structures.py` (missing
from the source tree): status code, header mapping and body. -/
structure Response where
  status : Nat
  headers : List (String × HVal)
  data : String
deriving Repr, DecidableEq

/-- Modelled from the spec: `STATUS_CODE_OK` of `src/status.py` (missing
from the source tree). -/
def STATUS_CODE_OK : Nat := 200

/-- Modelled from the spec: `STATUS_CODE_NOT_FOUND` of `src/status.py`
(missing from the source tree). -/
def STATUS_CODE_NOT_FOUND : Nat := 404

/-- Modelled from the spec: `STATUS_CODE_NOT_IMPLEMENTED` of
`src/status.py` (missing from the source tree). -/
def STATUS_CODE_NOT_IMPLEMENTED : Nat := 501

/-- The `Accept-Encoding` tokens computed by `_handle_get` (main.py line
152): split on commas, each token stripped. -/
def encodingsOf (req : Request) : List String :=
  (req.acceptEncoding.splitOn ",").map (fun x => x.trim)

/-- Fuelled worker for `substAll`; each step consumes at least one
subject character, so any fuel of at least the subject's length computes
the full substitution. -/
def substAllAux (pat rep : List Char) : Nat → List Char → List Char
  | 0, s => s
  | fuel + 1, s =>
    match s with
    | [] => []
    | c :: t =>
      if pat ≠ [] ∧ pat.isPrefixOf s then
        rep ++ substAllAux pat rep fuel (s.drop pat.length)
      else
        c :: substAllAux pat rep fuel t

/-- Replace every occurrence of `pat` in the subject by `rep`, scanning
left to right and continuing after the replacement — the behaviour of
Python `str.replace` and of the placeholder substitution done by
`str.format` for a template whose only replacement fields are the given
placeholders. -/
def substAll (pat rep s : List Char) : List Char :=
  substAllAux pat rep s.length s

/-- The `status_code` replacement field of the error template. -/
def scPat : List Char := "{status_code}".toList

/-- The `error_message` replacement field of the error template. -/
def emPat : List Char := "{error_message}".toList

/-- Python `error.format(status_code=..., error_message=...)` from
`_handle_get` (main.py lines 173-175), for a template whose replacement
fields are `status_code` and `error_message`. -/
def pyFormat (tpl statusText msg : String) : String :=
  String.mk (substAll emPat msg.toList (substAll scPat statusText.toList tpl.toList))

/-- The human-readable message `_handle_get` substitutes into the error
template (main.py line 175): `f"Page at \x27{request.path[1:]}\x27 not found :<"`. -/
def errMsg (path : String) : String :=
  "Page at \x27" ++ (path.drop 1) ++ "\x27 not found :<"

/-- `HTTPyServer._handle_get` (main.py lines 144-178).  The file manager is
the association list of cataloged containers; `none` models a Python
exception escaping the handler (the unguarded
`get_container("/err/response")` dereference on line 172 when that path is
not cataloged). -/
def handle_get (fm : List (String × Container)) (req : Request) : Option Response :=
  let encodings := encodingsOf req
  match List.lookup req.path fm with
  | some container =>
    let headers0 := [("Content-Type", HVal.str container.uncompressed.filetype),
                     ("Content-Length", HVal.nat container.uncompressed.size)]
    if container.compressed then
      if "br" ∈ encodings then
        some { data := container.brotli_compressed.data,
               status := STATUS_CODE_OK,
               headers := setH (setH headers0 "Content-Encoding" (HVal.str "br"))
                               "Content-Length" (HVal.nat container.brotli_compressed.size) }
      else if "gzip" ∈ encodings then
        some { data := container.gzip_compressed.data,
               status := STATUS_CODE_OK,
               headers := setH (setH headers0 "Content-Encoding" (HVal.str "gzip"))
                               "Content-Length" (HVal.nat container.gzip_compressed.size) }
      else
        some { data := container.uncompressed.data,
               status := STATUS_CODE_OK, headers := headers0 }
    else
      some { data := container.uncompressed.data,
             status := STATUS_CODE_OK, headers := headers0 }
  | none =>
    match List.lookup "/err/response" fm with
    | none => none
    | some errc =>
      some { data := pyFormat errc.uncompressed.data "404 Not Found" (errMsg req.path),
             status := STATUS_CODE_NOT_FOUND,
             headers := [] }

/-- The response-producing part of `HTTPyServer._client_handle` (main.py
lines 129-136): GET requests go to `_handle_get`, every other method gets
the literal `Not implemented :<` response, and `Connection: close` is set
on whatever response results. -/
def client_handle (fm : List (String × Container)) (req : Request) : Option Response :=
  (if req.type = "GET" then handle_get fm req
   else some { data := "Not implemented :<",
               status := STATUS_CODE_NOT_IMPLEMENTED, headers := [] }).map
    (fun r => { r with headers := setH r.headers "Connection" (HVal.str "close") })

/-- A configured entry of `FILE_MAN_PATH_MAP` in `src/config.py`: public
path key, filesystem path, compress flag. -/
structure ConfigEntry where
  key : List Char
  path : List Char
  compress : Bool
deriving Repr, DecidableEq

/-- A `path_map` value before the header pass of `generate_path_map`
(file_man.py lines 31-37): filesystem path and compress flag. -/
structure EntryBase where
  path : List Char
  compress : Bool
deriving Repr, DecidableEq

/-- A `path_map` value after the header pass of `generate_path_map`
(file_man.py lines 40-61): filesystem path, compress flag and headers. -/
structure Entry where
  path : List Char
  compress : Bool
  headers : List (String × HVal)
deriving Repr, DecidableEq

/-- The filesystem visible to `file_man.py`, abstracted as the association
list of regular files and their contents. -/
def FS : Type := List (List Char × List Nat)

/-- `os.path.isfile`. -/
def isFileFS (fs : FS) (p : List Char) : Bool :=
  (List.lookup p fs).isSome

/-- `os.path.exists`: a path exists when it is a file or a directory with
some file below it. -/
def existsFS (fs : FS) (p : List Char) : Bool :=
  isFileFS fs p || fs.any (fun f => (p ++ ['/']).isPrefixOf f.1)

/-- `list_path` (file_man.py lines 6-12): a file lists as itself, a
directory recursively lists every file below it. -/
def listPathFS (fs : FS) (p : List Char) : List (List Char) :=
  if isFileFS fs p then [p]
  else (fs.map Prod.fst).filter (fun f => (p ++ ['/']).isPrefixOf f)

/-- Whether `pat` occurs as a contiguous block anywhere in the subject. -/
def occursIn (pat : List Char) : List Char → Bool
  | [] => pat.isEmpty
  | c :: s => pat.isPrefixOf (c :: s) || occursIn pat s

/-- The catalog entries one configured entry contributes in the first loop
of `generate_path_map` (file_man.py lines 22-37): entries whose target
fails both existence checks are skipped; a wildcard key is expanded into
one entry per file below the target directory, keyed
`key[:-1] + path.replace(keypath + "/", "")`; any other key maps
directly. -/
def expandEntry (fs : FS) (ce : ConfigEntry) : List (List Char × EntryBase) :=
  if existsFS fs ce.path = false ∧
     existsFS fs (ce.path.take (ce.path.length - 2)) = false then []
  else if ce.key.getLast? = some '*' then
    let keypath := ce.path.take (ce.path.length - 2)
    (listPathFS fs keypath).map
      (fun p => (ce.key.dropLast ++ substAll (keypath ++ ['/']) [] p,
                 { path := p, compress := ce.compress }))
  else [(ce.key, { path := ce.path, compress := ce.compress })]

/-- Python `dict` assignment on an association list of web paths. -/
def insertPM (m : List (List Char × EntryBase)) (k : List Char) (v : EntryBase) :
    List (List Char × EntryBase) :=
  if (List.lookup k m).isSome then
    m.map (fun kv => if kv.1 = k then (k, v) else kv)
  else m ++ [(k, v)]

/-- The basic path map built by the first loop of `generate_path_map`. -/
def buildPathMap (fs : FS) (config : List ConfigEntry) : List (List Char × EntryBase) :=
  config.foldl (fun m ce => (expandEntry fs ce).foldl (fun m kv => insertPM m kv.1 kv.2) m) []

/-- The basename of a filesystem path. -/
def baseNameOf (p : List Char) : List Char :=
  (p.reverse.takeWhile (fun c => c != '/')).reverse

/-- `os.path.splitext(p)[1]`: the extension from the last dot of the
basename, empty when the basename has no dot past its first character. -/
def extOf (p : List Char) : List Char :=
  let base := baseNameOf p
  if '.' ∈ base.drop 1 then
    '.' :: (base.reverse.takeWhile (fun c => c != '.')).reverse
  else []

/-- The extension-to-content-type table of `generate_path_map`
(file_man.py lines 43-59). -/
def ctOf (ext : List Char) : String :=
  if ext = ".htm".toList ∨ ext = ".html".toList then "text/html"
  else if ext = ".css".toList then "text/css"
  else if ext = ".txt".toList then "text/plain"
  else if ext = ".js".toList then "text/javascript"
  else if ext = ".png".toList then "image/png"
  else if ext = ".webp".toList then "image/webp"
  else if ext = ".jpg".toList ∨ ext = ".jpeg".toList then "image/jpeg"
  else "*/*"

/-- The header pass of `generate_path_map` (file_man.py lines 40-61):
derives `Content-Type` from the extension and `Content-Length` from
`os.path.getsize`; `none` models the `OSError` raised by `getsize` on a
missing file, which aborts catalog construction. -/
def addHeaders (fs : FS) : List (List Char × EntryBase) →
    Option (List (List Char × Entry))
  | [] => some []
  | kv :: rest =>
    match List.lookup kv.2.path fs with
    | none => none
    | some d =>
      match addHeaders fs rest with
      | none => none
      | some rest' =>
        some ((kv.1, { path := kv.2.path, compress := kv.2.compress,
                       headers := [("Content-Type", HVal.str (ctOf (extOf kv.2.path))),
                                   ("Content-Length", HVal.nat d.length)] }) :: rest')

/-- `generate_path_map` (file_man.py lines 15-74). -/
def generate_path_map (fs : FS) (config : List ConfigEntry) :
    Option (List (List Char × Entry)) :=
  addHeaders fs (buildPathMap fs config)

/-- Modelled from the spec: the external `gzip` collaborator used by
`compress_path_map` — a lossless encoding, embedded as the payload behind
the two gzip magic bytes. -/
def gzip_compress (d : List Nat) : List Nat := 31 :: 139 :: d

/-- Modelled from the spec: decompressing the gzip encoding. -/
def gzip_decompress (d : List Nat) : List Nat := d.drop 2

/-- Modelled from the spec: the external `htmlmin.minify` collaborator
invoked with `remove_comments`/`remove_empty_space`/
`remove_all_empty_space`/`reduce_boolean_attributes` (file_man.py lines
97-102) — a lossy build-time minification, embedded as the removal of
ASCII whitespace bytes. -/
def htmlmin_minify (d : List Nat) : List Nat :=
  d.filter (fun b => !(b == 32 || b == 9 || b == 10 || b == 13))

/-- The bytes `compress_path_map` writes to (and afterwards serves from)
the compressed store for a file of the given content type (file_man.py
lines 92-106): `text/html` files are minified then gzipped, everything
else is gzipped as-is. -/
def compressedData (contentType : String) (d : List Nat) : List Nat :=
  if contentType = "text/html" then gzip_compress (htmlmin_minify d)
  else gzip_compress d

/-- The in-place update `compress_path_map` performs on one `path_map`
value (file_man.py lines 86-110): non-compressible entries are untouched;
a compressible entry's path is redirected to the compressed store, its
`Content-Length` becomes the compressed size and `Content-Encoding: gzip`
is added.  `content` maps an original filesystem path to its bytes. -/
def processEntry (content : List Char → List Nat) (pathPrefix : List Char)
    (e : Entry) : Entry :=
  if e.compress = false then e
  else
    let filepath := pathPrefix ++ '/' :: e.path
    let ct := match List.lookup "Content-Type" e.headers with
              | some (HVal.str s) => s
              | _ => ""
    let compData := compressedData ct (content e.path)
    { path := filepath, compress := e.compress,
      headers := setH (setH e.headers "Content-Length" (HVal.nat compData.length))
                      "Content-Encoding" (HVal.str "gzip") }

/-- `compress_path_map` (file_man.py lines 77-125) on a freshly generated
map (no pre-existing compressed store, matching the first run). -/
def compress_path_map (content : List Char → List Nat) (pathPrefix : List Char)
    (m : List (List Char × Entry)) : List (List Char × Entry) :=
  m.map (fun kv => (kv.1, processEntry content pathPrefix kv.2))

/-- What one `client.recv` call in `_recv` observes: bytes (possibly
empty, the peer having closed), a would-block signal
(`ssl.SSLWantReadError` / `BlockingIOError`), or a hard transport error
(`ssl.SSLError` / `OSError`). -/
inductive RecvEvent where
  | data (s : String)
  | wouldBlock
  | connError
deriving Repr, DecidableEq

/-- How `_recv` ends on a finite observation script: with a parsed
request, with the connection abandoned without a response (`return None`
paths and loop exit), or still pending (the script ended first). -/
inductive RecvOutcome where
  | request (r : String)
  | dropped
  | pending
deriving Repr, DecidableEq

/-- The check `buffer[-4:] == b'\r\n\r\n'` of `_recv` (main.py line
213): the four-byte header terminator ends the buffer. -/
def tailTerminator (s : String) : Bool :=
  "\r\n\r\n".toList.isSuffixOf s.toList

/-- `HTTPyServer._recv` (main.py lines 197-216) over a script of loop
iterations.  Each element carries the value `_is_running.is_set()` shows
at that iteration's poll together with the `recv` event the iteration
observes.  After a would-block the code sleeps and then falls through to
the same trailing checks, where `size == len(buffer)` holds, so the
iteration drops the connection; a read that grows the buffer returns the
request when the tail is `\r\n\r\n`, drops when the pre-read size
exceeded `maxSize`, and otherwise continues. -/
def recv (maxSize : Nat) : List (Bool × RecvEvent) → String → RecvOutcome
  | [], _ => .pending
  | (run, ev) :: rest, buffer =>
    if run = false then .dropped
    else
      match ev with
      | .connError => .dropped
      | .wouldBlock =>
        if tailTerminator buffer then .request buffer else .dropped
      | .data s =>
        let buffer2 := buffer ++ s
        if tailTerminator buffer2 then .request buffer2
        else if buffer.length = buffer2.length ∨ maxSize < buffer.length then .dropped
        else recv maxSize rest buffer2

/-- What one `client.send` call in `_send` observes: an acknowledged byte
count, a would-block signal, or a hard transport error. -/
inductive SendEvent where
  | sent (n : Nat)
  | wouldBlock
  | hardError
deriving Repr, DecidableEq

/-- How the write loop of `_send` ends on a finite script: chunk fully
written, response aborted on a hard error, or still pending. -/
inductive SendOutcome where
  | done
  | aborted
  | pending
deriving Repr, DecidableEq

/-- The inner write loop of `HTTPyServer._send` (main.py lines 187-195)
for one chunk of `total` bytes, over a script of loop iterations.  As in
`recv`, each script element carries the value the running flag would show
at that iteration — but the source loop `while sent < len(data)` never
consults the flag, so the Bool component is never read. -/
def send : List (Bool × SendEvent) → Nat → Nat → SendOutcome
  | [], sentBytes, total => if sentBytes < total then .pending else .done
  | (_running, ev) :: rest, sentBytes, total =>
    if sentBytes < total then
      match ev with
      | .sent n => send rest (sentBytes + n) total
      | .wouldBlock => send rest sentBytes total
      | .hardError => .aborted
    else .done

/-- What one iteration of `_accept` observes from `sock.accept()`: a new
client, a would-block signal, an `ssl.SSLError` with its `reason`, or any
other exception (for instance a plain `OSError`). -/
inductive AcceptEvent where
  | ok
  | wouldBlock
  | sslError (reason : String)
  | otherError
deriving Repr, DecidableEq

/-- How `_accept` ends on a finite script: returning a client socket,
returning `None` because the running flag was observed clear, raising out
of the accept loop, or still pending. -/
inductive AcceptOutcome where
  | client
  | exitLoop
  | raised
  | pending
deriving Repr, DecidableEq

/-- The `ssl.SSLError` reasons `_accept` swallows (main.py lines
231-238). -/
def handshakeNoiseReasons : List String :=
  ["HTTP_REQUEST", "UNSUPPORTED_PROTOCOL", "SSLV3_ALERT_CERTIFICATE_UNKNOWN",
   "VERSION_TOO_LOW", "WRONG_VERSION_NUMBER", "UNEXPECTED_EOF_WHILE_READING"]

/-- `HTTPyServer._accept` (main.py lines 218-239) over a script of loop
iterations.  Each element carries the running-flag value at that
iteration's poll, the `threading.enumerate()` length, and the accept
event.  A thread count above the ceiling skips the accept attempt; a
would-block sleeps and retries; a swallowed SSL reason retries; any other
error propagates. -/
def accept (maxThreads : Nat) : List (Bool × Nat × AcceptEvent) → AcceptOutcome
  | [] => .pending
  | (run, tc, ev) :: rest =>
    if run = false then .exitLoop
    else if maxThreads < tc then accept maxThreads rest
    else
      match ev with
      | .ok => .client
      | .wouldBlock => accept maxThreads rest
      | .sslError reason =>
        if reason ∈ handshakeNoiseReasons then accept maxThreads rest else .raised
      | .otherError => .raised

/-- The process-wide run state: `self._is_running`. -/
structure ServerRunState where
  running : Bool
deriving Repr, DecidableEq

/-- `HTTPyServer.stop` (main.py lines 90-106) on the run state: clears the
running flag (it then joins worker threads). -/
def stop (_st : ServerRunState) : ServerRunState := { running := false }

/-- `HTTPyServer._server_handle` (main.py lines 108-117) run until its
`_accept` call settles.  The loop body only spawns workers; nothing in
`_server_handle` or `_accept` mutates the running flag, and an exception
propagating out of `_accept` terminates the thread without any state
transition — `stop` is only ever invoked by the SIGINT handler. -/
def server_handle (st : ServerRunState) (maxThreads : Nat)
    (script : List (Bool × Nat × AcceptEvent)) : ServerRunState × AcceptOutcome :=
  (st, accept maxThreads script)

theorem lookup_setH_self (hs : List (String × HVal)) (k : String) (v : HVal) :
    List.lookup k (setH hs k v) = some v := by
  induction hs with
  | nil => simp [setH, List.lookup]
  | cons kv rest ih =>
    obtain ⟨k', v'⟩ := kv
    by_cases h : k' = k
    · subst h
      simp [setH, List.lookup]
    · have hb : (k == k') = false := beq_eq_false_iff_ne.mpr (Ne.symm h)
      simp [setH, h, List.lookup, hb, ih]

theorem lookup_setH_ne (hs : List (String × HVal)) (k k' : String) (v : HVal)
    (h : k' ≠ k) : List.lookup k' (setH hs k v) = List.lookup k' hs := by
  have hb : (k' == k) = false := beq_eq_false_iff_ne.mpr h
  induction hs with
  | nil => simp [setH, List.lookup, hb]
  | cons kv rest ih =>
    obtain ⟨k'', v''⟩ := kv
    by_cases h2 : k'' = k
    · subst h2
      simp [setH, List.lookup, hb, ih]
    · simp [setH, h2, List.lookup, ih]

/-- C1: for a GET request whose path is cataloged, `_handle_get` returns
status 200 with `Content-Length` equal to the byte length of the body
it actually selects; when the entry is compressible and `br` is among the
`Accept-Encoding` tokens, the brotli variant is served under
`Content-Encoding: br`; when `gzip` is present but `br` is not, the gzip
variant under `Content-Encoding: gzip`; when neither token is present no
`Content-Encoding` header is set and the identity variant is served. -/
theorem get_negotiation (fm : List (String × Container)) (req : Request) (c : Container)
    (_hget : req.type = "GET") (hc : List.lookup req.path fm = some c) :
    ∃ r, handle_get fm req = some r ∧ r.status = 200 ∧
      List.lookup "Content-Length" r.headers = some (HVal.nat r.data.length) ∧
      (c.compressed = true → "br" ∈ encodingsOf req →
        List.lookup "Content-Encoding" r.headers = some (HVal.str "br") ∧
        r.data = c.brotli_compressed.data) ∧
      (c.compressed = true → "br" ∉ encodingsOf req → "gzip" ∈ encodingsOf req →
        List.lookup "Content-Encoding" r.headers = some (HVal.str "gzip") ∧
        r.data = c.gzip_compressed.data) ∧
      ("br" ∉ encodingsOf req → "gzip" ∉ encodingsOf req →
        List.lookup "Content-Encoding" r.headers = none ∧
        r.data = c.uncompressed.data) := by
  have hb1 : ("Content-Length" == "Content-Type") = false := by decide
  have hb2 : ("Content-Length" == "Content-Length") = true := by decide
  have hb3 : ("Content-Encoding" == "Content-Type") = false := by decide
  have hb4 : ("Content-Encoding" == "Content-Length") = false := by decide
  have hne : "Content-Encoding" ≠ "Content-Length" := by decide
  by_cases hcomp : c.compressed = true
  · by_cases hbr : "br" ∈ encodingsOf req
    · refine ⟨⟨STATUS_CODE_OK,
          setH (setH [("Content-Type", HVal.str c.uncompressed.filetype),
              ("Content-Length", HVal.nat c.uncompressed.size)]
            "Content-Encoding" (HVal.str "br"))
            "Content-Length" (HVal.nat c.brotli_compressed.size),
          c.brotli_compressed.data⟩, ?_, rfl, ?_, ?_, ?_, ?_⟩
      · simp [handle_get, hc, hcomp, hbr]
      · rw [lookup_setH_self]
        rfl
      · intro _ _
        exact ⟨by rw [lookup_setH_ne _ _ _ _ hne, lookup_setH_self], rfl⟩
      · intro _ hn _
        exact absurd hbr hn
      · intro hn _
        exact absurd hbr hn
    · by_cases hgz : "gzip" ∈ encodingsOf req
      · refine ⟨⟨STATUS_CODE_OK,
            setH (setH [("Content-Type", HVal.str c.uncompressed.filetype),
                ("Content-Length", HVal.nat c.uncompressed.size)]
              "Content-Encoding" (HVal.str "gzip"))
              "Content-Length" (HVal.nat c.gzip_compressed.size),
            c.gzip_compressed.data⟩, ?_, rfl, ?_, ?_, ?_, ?_⟩
        · simp [handle_get, hc, hcomp, hbr, hgz]
        · rw [lookup_setH_self]
          rfl
        · intro _ hbr'
          exact absurd hbr' hbr
        · intro _ _ _
          exact ⟨by rw [lookup_setH_ne _ _ _ _ hne, lookup_setH_self], rfl⟩
        · intro _ hn
          exact absurd hgz hn
      · refine ⟨⟨STATUS_CODE_OK,
            [("Content-Type", HVal.str c.uncompressed.filetype),
             ("Content-Length", HVal.nat c.uncompressed.size)],
            c.uncompressed.data⟩, ?_, rfl, ?_, ?_, ?_, ?_⟩
        · simp [handle_get, hc, hcomp, hbr, hgz]
        · simp [List.lookup, hb1, hb2, Variant.size]
        · intro _ hbr'
          exact absurd hbr' hbr
        · intro _ _ hgz'
          exact absurd hgz' hgz
        · intro _ _
          exact ⟨by simp [List.lookup, hb3, hb4], rfl⟩
  · refine ⟨⟨STATUS_CODE_OK,
        [("Content-Type", HVal.str c.uncompressed.filetype),
         ("Content-Length", HVal.nat c.uncompressed.size)],
        c.uncompressed.data⟩, ?_, rfl, ?_, ?_, ?_, ?_⟩
    · simp [handle_get, hc, hcomp]
    · simp [List.lookup, hb1, hb2, Variant.size]
    · intro hcomp' _
      exact absurd hcomp' hcomp
    · intro hcomp' _ _
      exact absurd hcomp' hcomp
    · intro _ _
      exact ⟨by simp [List.lookup, hb3, hb4], rfl⟩

/-- C1 witness: a concrete compressible catalog entry requested with
`Accept-Encoding: br, gzip` is served the brotli variant. -/
theorem get_negotiation_witness :
    (({ type := "GET", path := "/a", acceptEncoding := "br, gzip" } : Request).type = "GET" ∧
     List.lookup "/a"
       [("/a", ({ uncompressed := { filetype := "text/html", data := "IDENTITY" },
                  brotli_compressed := { filetype := "text/html", data := "BR" },
                  gzip_compressed := { filetype := "text/html", data := "GZDATA" },
                  compressed := true } : Container))] =
       some ({ uncompressed := { filetype := "text/html", data := "IDENTITY" },
               brotli_compressed := { filetype := "text/html", data := "BR" },
               gzip_compressed := { filetype := "text/html", data := "GZDATA" },
               compressed := true } : Container)) ∧
    (∃ r, handle_get
        [("/a", ({ uncompressed := { filetype := "text/html", data := "IDENTITY" },
                   brotli_compressed := { filetype := "text/html", data := "BR" },
                   gzip_compressed := { filetype := "text/html", data := "GZDATA" },
                   compressed := true } : Container))]
        { type := "GET", path := "/a", acceptEncoding := "br, gzip" } = some r ∧
      r.status = 200 ∧
      List.lookup "Content-Length" r.headers = some (HVal.nat r.data.length) ∧
      (({ uncompressed := { filetype := "text/html", data := "IDENTITY" },
          brotli_compressed := { filetype := "text/html", data := "BR" },
          gzip_compressed := { filetype := "text/html", data := "GZDATA" },
          compressed := true } : Container).compressed = true →
        "br" ∈ encodingsOf { type := "GET", path := "/a", acceptEncoding := "br, gzip" } →
        List.lookup "Content-Encoding" r.headers = some (HVal.str "br") ∧
        r.data = ({ uncompressed := { filetype := "text/html", data := "IDENTITY" },
                    brotli_compressed := { filetype := "text/html", data := "BR" },
                    gzip_compressed := { filetype := "text/html", data := "GZDATA" },
                    compressed := true } : Container).brotli_compressed.data) ∧
      (({ uncompressed := { filetype := "text/html", data := "IDENTITY" },
          brotli_compressed := { filetype := "text/html", data := "BR" },
          gzip_compressed := { filetype := "text/html", data := "GZDATA" },
          compressed := true } : Container).compressed = true →
        "br" ∉ encodingsOf { type := "GET", path := "/a", acceptEncoding := "br, gzip" } →
        "gzip" ∈ encodingsOf { type := "GET", path := "/a", acceptEncoding := "br, gzip" } →
        List.lookup "Content-Encoding" r.headers = some (HVal.str "gzip") ∧
        r.data = ({ uncompressed := { filetype := "text/html", data := "IDENTITY" },
                    brotli_compressed := { filetype := "text/html", data := "BR" },
                    gzip_compressed := { filetype := "text/html", data := "GZDATA" },
                    compressed := true } : Container).gzip_compressed.data) ∧
      ("br" ∉ encodingsOf { type := "GET", path := "/a", acceptEncoding := "br, gzip" } →
        "gzip" ∉ encodingsOf { type := "GET", path := "/a", acceptEncoding := "br, gzip" } →
        List.lookup "Content-Encoding" r.headers = none ∧
        r.data = ({ uncompressed := { filetype := "text/html", data := "IDENTITY" },
                    brotli_compressed := { filetype := "text/html", data := "BR" },
                    gzip_compressed := { filetype := "text/html", data := "GZDATA" },
                    compressed := true } : Container).uncompressed.data)) :=
  ⟨⟨rfl, by decide⟩,
    get_negotiation
      [("/a", ({ uncompressed := { filetype := "text/html", data := "IDENTITY" },
                 brotli_compressed := { filetype := "text/html", data := "BR" },
                 gzip_compressed := { filetype := "text/html", data := "GZDATA" },
                 compressed := true } : Container))]
      { type := "GET", path := "/a", acceptEncoding := "br, gzip" }
      { uncompressed := { filetype := "text/html", data := "IDENTITY" },
        brotli_compressed := { filetype := "text/html", data := "BR" },
        gzip_compressed := { filetype := "text/html", data := "GZDATA" },
        compressed := true }
      rfl (by decide)⟩

/-- C2 counterexample: a HEAD request on a registered path is answered
with status 501 and the literal body `Not implemented :<` — not with the
GET response's headers and an empty body as the claim states. -/
theorem head_not_implemented_cex :
    client_handle
      [("/", { uncompressed := { filetype := "text/html", data := "BODY" },
               brotli_compressed := { filetype := "text/html", data := "BR" },
               gzip_compressed := { filetype := "text/html", data := "GZ" },
               compressed := true })]
      { type := "HEAD", path := "/", acceptEncoding := "" } =
    some { status := 501, headers := [("Connection", HVal.str "close")],
           data := "Not implemented :<" } := by decide

/-- C2 (amended): a GET is served with the full body produced by
`_handle_get`; every non-GET method — HEAD included — is answered with
status 501 (never 200) and the body `Not implemented :<`. -/
theorem method_dispatch (fm : List (String × Container)) (req : Request) :
    (req.type ≠ "GET" →
      ∃ r, client_handle fm req = some r ∧ r.status = 501 ∧ r.status ≠ 200 ∧
        r.data = "Not implemented :<") ∧
    (∀ g, req.type = "GET" → handle_get fm req = some g →
      ∃ r, client_handle fm req = some r ∧ r.status = g.status ∧ r.data = g.data) := by
  constructor
  · intro h
    refine ⟨{ status := STATUS_CODE_NOT_IMPLEMENTED,
              headers := setH [] "Connection" (HVal.str "close"),
              data := "Not implemented :<" }, ?_, rfl, by decide, rfl⟩
    simp [client_handle, h]
  · intro g h hg
    refine ⟨{ g with headers := setH g.headers "Connection" (HVal.str "close") },
            ?_, rfl, rfl⟩
    simp [client_handle, h, hg]

/-- C2 witness: the amended dispatch behaviour at a concrete HEAD request
and a concrete GET request. -/
theorem method_dispatch_witness :
    (({ type := "HEAD", path := "/", acceptEncoding := "" } : Request).type ≠ "GET" ∧
      ∃ r, client_handle [] { type := "HEAD", path := "/", acceptEncoding := "" } = some r ∧
        r.status = 501 ∧ r.status ≠ 200 ∧ r.data = "Not implemented :<") :=
  ⟨by decide, (method_dispatch [] { type := "HEAD", path := "/", acceptEncoding := "" }).1
    (by decide)⟩

/-- C10: the not-found branch of `_handle_get` dereferences the
`/err/response` container unconditionally — with `/err/response` absent
the handler fails (no response is produced) on every request to an
uncataloged path, and with it present the handler is total on such
requests. -/
theorem err_template_dereference (fm : List (String × Container)) (req : Request) :
    (List.lookup req.path fm = none → List.lookup "/err/response" fm = none →
      handle_get fm req = none) ∧
    (List.lookup req.path fm = none → ∀ c, List.lookup "/err/response" fm = some c →
      ∃ r, handle_get fm req = some r) := by
  constructor
  · intro h1 h2
    simp [handle_get, h1, h2]
  · intro h1 c h2
    refine ⟨{ status := STATUS_CODE_NOT_FOUND, headers := [],
              data := pyFormat c.uncompressed.data "404 Not Found" (errMsg req.path) }, ?_⟩
    simp [handle_get, h1, h2]

/-- C10 witness: with an empty catalog the handler produces nothing for
`/x`; with `/err/response` cataloged it produces a response for `/x`. -/
theorem err_template_dereference_witness :
    (List.lookup "/x" ([] : List (String × Container)) = none ∧
     List.lookup "/err/response" ([] : List (String × Container)) = none ∧
     handle_get [] { type := "GET", path := "/x", acceptEncoding := "" } = none) ∧
    (List.lookup "/x"
        [("/err/response", ({ uncompressed := { filetype := "text/html", data := "T" },
                              brotli_compressed := { filetype := "", data := "" },
                              gzip_compressed := { filetype := "", data := "" },
                              compressed := false } : Container))] = none ∧
     ∃ r, handle_get
        [("/err/response", ({ uncompressed := { filetype := "text/html", data := "T" },
                              brotli_compressed := { filetype := "", data := "" },
                              gzip_compressed := { filetype := "", data := "" },
                              compressed := false } : Container))]
        { type := "GET", path := "/x", acceptEncoding := "" } = some r) :=
  ⟨⟨rfl, rfl,
    (err_template_dereference [] { type := "GET", path := "/x", acceptEncoding := "" }).1
      rfl rfl⟩,
   ⟨by decide,
    (err_template_dereference
        [("/err/response", ({ uncompressed := { filetype := "text/html", data := "T" },
                              brotli_compressed := { filetype := "", data := "" },
                              gzip_compressed := { filetype := "", data := "" },
                              compressed := false } : Container))]
        { type := "GET", path := "/x", acceptEncoding := "" }).2
      (by decide)
      { uncompressed := { filetype := "text/html", data := "T" },
        brotli_compressed := { filetype := "", data := "" },
        gzip_compressed := { filetype := "", data := "" },
        compressed := false }
      (by decide)⟩⟩

theorem recv_request_endsWith (maxSize : Nat) :
    ∀ (script : List (Bool × RecvEvent)) (buffer r : String),
      recv maxSize script buffer = RecvOutcome.request r →
      tailTerminator r = true := by
  intro script
  induction script with
  | nil =>
    intro buffer r h
    simp [recv] at h
  | cons head rest ih =>
    obtain ⟨run, ev⟩ := head
    intro buffer r h
    cases ev with
    | connError =>
      simp only [recv] at h
      split at h
      · exact absurd h (by simp)
      · exact absurd h (by simp)
    | wouldBlock =>
      simp only [recv] at h
      split at h
      · exact absurd h (by simp)
      · split at h
        · rename_i hterm
          injection h with h2
          rw [← h2]
          exact hterm
        · exact absurd h (by simp)
    | data s =>
      simp only [recv] at h
      split at h
      · exact absurd h (by simp)
      · split at h
        · rename_i hterm
          injection h with h2
          rw [← h2]
          exact hterm
        · split at h
          · exact absurd h (by simp)
          · exact ih _ _ h

/-- C3 counterexample: a read that merely signals would-block is not
retried — the connection is dropped at once, even though the very next
read would have completed the request; without the would-block the same
data yields the parsed request. -/
theorem recv_wouldBlock_dropped_cex :
    recv 65536 [(true, RecvEvent.wouldBlock),
                (true, RecvEvent.data "GET / HTTP/1.1\r\n\r\n")] "" =
      RecvOutcome.dropped ∧
    recv 65536 [(true, RecvEvent.data "GET / HTTP/1.1\r\n\r\n")] "" =
      RecvOutcome.request "GET / HTTP/1.1\r\n\r\n" := by
  constructor <;> decide

/-- C3 (amended): `_recv` returns a parsed request exactly when the
four-byte terminator ends the buffer after a read; the connection is
dropped — no response is produced — as soon as a single iteration yields
no new bytes: a would-block (which sleeps briefly but then falls through
to the stall check) drops immediately, as does an empty read; an
oversized buffer without terminator also drops; and a cleared running
flag ends the loop. -/
theorem recv_behaviour (maxSize : Nat) :
    (∀ script buffer r, recv maxSize script buffer = RecvOutcome.request r →
        tailTerminator r = true) ∧
    (∀ rest buffer, tailTerminator buffer = false →
        recv maxSize ((true, RecvEvent.wouldBlock) :: rest) buffer = RecvOutcome.dropped) ∧
    (∀ rest buffer s, tailTerminator (buffer ++ s) = true →
        recv maxSize ((true, RecvEvent.data s) :: rest) buffer =
          RecvOutcome.request (buffer ++ s)) ∧
    (∀ rest buffer, tailTerminator buffer = false →
        recv maxSize ((true, RecvEvent.data "") :: rest) buffer = RecvOutcome.dropped) ∧
    (∀ rest buffer s, tailTerminator (buffer ++ s) = false → maxSize < buffer.length →
        recv maxSize ((true, RecvEvent.data s) :: rest) buffer = RecvOutcome.dropped) ∧
    (∀ rest buffer ev, recv maxSize ((false, ev) :: rest) buffer = RecvOutcome.dropped) := by
  refine ⟨recv_request_endsWith maxSize, ?_, ?_, ?_, ?_, ?_⟩
  · intro rest buffer h
    simp [recv, h]
  · intro rest buffer s h
    simp [recv, h]
  · intro rest buffer h
    simp [recv, h]
  · intro rest buffer s h hlen
    simp [recv, h, hlen]
  · intro rest buffer ev
    simp [recv]

/-- C3 witness: the amended reception behaviour at concrete scripts — a
stalled would-block drops a non-terminated buffer, and a read completing
the terminator yields the request. -/
theorem recv_behaviour_witness :
    (tailTerminator "AB" = false ∧
     recv 100 [(true, RecvEvent.wouldBlock)] "AB" = RecvOutcome.dropped) ∧
    (tailTerminator ("AB" ++ "CD\r\n\r\n") = true ∧
     recv 100 [(true, RecvEvent.data "CD\r\n\r\n")] "AB" =
       RecvOutcome.request ("AB" ++ "CD\r\n\r\n")) :=
  ⟨⟨by decide, (recv_behaviour 100).2.1 [] "AB" (by decide)⟩,
   ⟨by decide, (recv_behaviour 100).2.2.1 [] "AB" "CD\r\n\r\n" (by decide)⟩⟩

/-- C4 counterexample: for a `text/html` resource the stored gzip body
does not decompress to the original file bytes — the byte 32 (a space)
is dropped by the minification pass, so the round-trip law fails on
`<p> </p>`. -/
theorem gzip_roundtrip_html_cex :
    gzip_decompress (compressedData "text/html" [60, 112, 62, 32, 60, 47, 112, 62]) ≠
      [60, 112, 62, 32, 60, 47, 112, 62] := by decide

/-- C4 (amended): decompressing the gzip variant produced by
`compress_path_map` yields byte-for-byte the original content for every
non-HTML resource; for a `text/html` resource it yields the minified
document, which can differ from the original (and no brotli variant is
produced at all — despite its docstring, `compress_path_map` only
gzips). -/
theorem gzip_roundtrip (ct : String) (d : List Nat) :
    (ct ≠ "text/html" → gzip_decompress (compressedData ct d) = d) ∧
    (ct = "text/html" → gzip_decompress (compressedData ct d) = htmlmin_minify d) := by
  constructor
  · intro h
    simp [compressedData, gzip_compress, gzip_decompress, h]
  · intro h
    simp [compressedData, gzip_compress, gzip_decompress, h]

/-- C4 witness: the amended round-trip law at a concrete PNG payload and
a concrete HTML payload. -/
theorem gzip_roundtrip_witness :
    ("image/png" ≠ "text/html" ∧
     gzip_decompress (compressedData "image/png" [1, 2, 3]) = [1, 2, 3]) ∧
    ("text/html" = "text/html" ∧
     gzip_decompress (compressedData "text/html" [60, 32, 62]) =
       htmlmin_minify [60, 32, 62]) :=
  ⟨⟨by decide, (gzip_roundtrip "image/png" [1, 2, 3]).1 (by decide)⟩,
   ⟨rfl, (gzip_roundtrip "text/html" [60, 32, 62]).2 rfl⟩⟩

/-- C5 counterexample: after `compress_path_map`, the sole — compressible
— catalog entry points into the compressed store and carries
`Content-Encoding: gzip`: its identity variant is no longer cataloged,
refuting `identity variant always exists`. -/
theorem identity_variant_cex :
    (compress_path_map (fun _ => [104, 105]) "compress".toList
       [("/".toList,
         (⟨"www/index.html".toList, true,
           [("Content-Type", HVal.str "text/html"),
            ("Content-Length", HVal.nat 2)]⟩ : Entry))]).map
      (fun kv => (kv.2.path, List.lookup "Content-Encoding" kv.2.headers)) =
    [("compress/www/index.html".toList, some (HVal.str "gzip"))] := by decide

theorem processEntry_not_compress (content : List Char → List Nat)
    (pathPrefix : List Char) (e : Entry) (h : e.compress = false) :
    processEntry content pathPrefix e = e := by
  simp [processEntry, h]

theorem processEntry_compress (content : List Char → List Nat)
    (pathPrefix : List Char) (e : Entry) (h : e.compress = true) :
    (processEntry content pathPrefix e).compress = true ∧
    List.lookup "Content-Encoding" (processEntry content pathPrefix e).headers =
      some (HVal.str "gzip") := by
  have hne : ¬ (e.compress = false) := by simp [h]
  constructor
  · simp only [processEntry]
    rw [if_neg hne]
    exact h
  · simp only [processEntry]
    rw [if_neg hne]
    exact lookup_setH_self _ _ _

/-- C5 (amended): `compress_path_map` leaves every non-compressible entry
untouched (identity variant only, no `Content-Encoding`), and rewrites
every compressible entry to carry exactly the gzip variant
(`Content-Encoding: gzip`); compressed variants therefore exist only for
compressible entries, but the identity variant of a compressible entry is
no longer cataloged. -/
theorem compress_variant_invariant (content : List Char → List Nat)
    (pathPrefix : List Char) (m : List (List Char × Entry))
    (h : ∀ kv ∈ m, List.lookup "Content-Encoding" kv.2.headers = none) :
    ∀ kv ∈ compress_path_map content pathPrefix m,
      (kv.2.compress = true →
        List.lookup "Content-Encoding" kv.2.headers = some (HVal.str "gzip")) ∧
      (kv.2.compress = false →
        List.lookup "Content-Encoding" kv.2.headers = none) := by
  intro kv hkv
  obtain ⟨⟨k0, e0⟩, hmem, heq⟩ := List.mem_map.mp hkv
  subst heq
  dsimp only
  by_cases hc : e0.compress = false
  · rw [processEntry_not_compress content pathPrefix e0 hc]
    constructor
    · intro hcmp
      rw [hc] at hcmp
      exact absurd hcmp (by decide)
    · intro _
      exact h (k0, e0) hmem
  · have hc' : e0.compress = true := by
      cases hcv : e0.compress
      · exact absurd hcv hc
      · rfl
    obtain ⟨hcc, hlk⟩ := processEntry_compress content pathPrefix e0 hc'
    constructor
    · intro _
      exact hlk
    · intro hcmp
      rw [hcc] at hcmp
      exact absurd hcmp (by decide)

/-- C5 witness: the amended invariant on a concrete two-entry catalog
with one compressible and one non-compressible entry. -/
theorem compress_variant_invariant_witness :
    ((∀ kv ∈ ([("/".toList,
                (⟨"www/i.html".toList, true,
                  [("Content-Type", HVal.str "text/html"),
                   ("Content-Length", HVal.nat 1)]⟩ : Entry)),
               ("/r.txt".toList,
                (⟨"www/r.txt".toList, false,
                  [("Content-Type", HVal.str "text/plain"),
                   ("Content-Length", HVal.nat 1)]⟩ : Entry))] :
          List (List Char × Entry)),
        List.lookup "Content-Encoding" kv.2.headers = none) ∧
     ∀ kv ∈ compress_path_map (fun _ => [104]) "compress".toList
       [("/".toList,
         (⟨"www/i.html".toList, true,
           [("Content-Type", HVal.str "text/html"),
            ("Content-Length", HVal.nat 1)]⟩ : Entry)),
        ("/r.txt".toList,
         (⟨"www/r.txt".toList, false,
           [("Content-Type", HVal.str "text/plain"),
            ("Content-Length", HVal.nat 1)]⟩ : Entry))],
       (kv.2.compress = true →
         List.lookup "Content-Encoding" kv.2.headers = some (HVal.str "gzip")) ∧
       (kv.2.compress = false →
         List.lookup "Content-Encoding" kv.2.headers = none)) :=
  ⟨by decide,
   compress_variant_invariant (fun _ => [104]) "compress".toList
     [("/".toList,
       (⟨"www/i.html".toList, true,
         [("Content-Type", HVal.str "text/html"),
          ("Content-Length", HVal.nat 1)]⟩ : Entry)),
      ("/r.txt".toList,
       (⟨"www/r.txt".toList, false,
         [("Content-Type", HVal.str "text/plain"),
          ("Content-Length", HVal.nat 1)]⟩ : Entry))]
     (by decide)⟩

/-- C7 counterexample: a non-whitelisted accept error makes `_accept`
raise, terminating the accept loop — but the server does not transition
to Stopping: the running flag is still set afterwards. -/
theorem accept_fatal_cex :
    server_handle { running := true } 32 [(true, 0, AcceptEvent.otherError)] =
      ({ running := true }, AcceptOutcome.raised) := by decide

/-- C7 (amended): in the accept loop a would-block sleeps briefly and
retries; a recognized TLS-handshake-noise reason is ignored and the loop
continues; any other accept error propagates out of the loop, killing
the accept thread — but it does not clear the running flag or transition
the server to the Stopping state (`stop` is never invoked on that
path). -/
theorem accept_error_handling (maxThreads : Nat) :
    (∀ rest tc, ¬ maxThreads < tc →
        accept maxThreads ((true, tc, AcceptEvent.wouldBlock) :: rest) =
          accept maxThreads rest) ∧
    (∀ rest tc reason, ¬ maxThreads < tc → reason ∈ handshakeNoiseReasons →
        accept maxThreads ((true, tc, AcceptEvent.sslError reason) :: rest) =
          accept maxThreads rest) ∧
    (∀ rest tc reason, ¬ maxThreads < tc → reason ∉ handshakeNoiseReasons →
        accept maxThreads ((true, tc, AcceptEvent.sslError reason) :: rest) =
          AcceptOutcome.raised) ∧
    (∀ rest tc, ¬ maxThreads < tc →
        accept maxThreads ((true, tc, AcceptEvent.otherError) :: rest) =
          AcceptOutcome.raised) ∧
    (∀ st script, (server_handle st maxThreads script).1 = st) := by
  refine ⟨?_, ?_, ?_, ?_, ?_⟩
  · intro rest tc h
    simp [accept, h]
  · intro rest tc reason h hr
    simp [accept, h, hr]
  · intro rest tc reason h hr
    simp [accept, h, hr]
  · intro rest tc h
    simp [accept, h]
  · intro st script
    rfl

/-- C7 witness: the amended accept-loop behaviour at concrete scripts —
a swallowed `WRONG_VERSION_NUMBER`, a fatal unknown reason, and the
unchanged run state. -/
theorem accept_error_handling_witness :
    (¬ 32 < 0 ∧
     accept 32 [(true, 0, AcceptEvent.wouldBlock), (true, 0, AcceptEvent.ok)] =
       accept 32 [(true, 0, AcceptEvent.ok)]) ∧
    (¬ 32 < 0 ∧ "WRONG_VERSION_NUMBER" ∈ handshakeNoiseReasons ∧
     accept 32 [(true, 0, AcceptEvent.sslError "WRONG_VERSION_NUMBER")] = accept 32 []) ∧
    (¬ 32 < 0 ∧ "DECRYPTION_FAILED" ∉ handshakeNoiseReasons ∧
     accept 32 [(true, 0, AcceptEvent.sslError "DECRYPTION_FAILED")] =
       AcceptOutcome.raised) ∧
    (server_handle { running := true } 32 [(true, 0, AcceptEvent.otherError)]).1 =
      { running := true } :=
  ⟨⟨by decide, (accept_error_handling 32).1 [(true, 0, AcceptEvent.ok)] 0 (by decide)⟩,
   ⟨by decide, by decide,
    (accept_error_handling 32).2.1 [] 0 "WRONG_VERSION_NUMBER" (by decide) (by decide)⟩,
   ⟨by decide, by decide,
    (accept_error_handling 32).2.2.1 [] 0 "DECRYPTION_FAILED" (by decide) (by decide)⟩,
   (accept_error_handling 32).2.2.2.2 { running := true }
     [(true, 0, AcceptEvent.otherError)]⟩

/-- C8 counterexample: with the running flag cleared at every iteration,
the write loop still retries a would-block and completes the write
instead of observing the flag and exiting — `_send` has no poll point. -/
theorem send_ignores_flag_cex :
    send [(false, SendEvent.wouldBlock), (false, SendEvent.sent 5)] 0 5 =
      SendOutcome.done := by decide

/-- C8 (amended): the accept loop and the read loop poll the running
flag and exit at their next poll point once it is cleared; the write
loop of `_send` never consults the flag — its outcome is identical for
any two flag histories over the same transport events. -/
theorem running_flag_polling (maxSize maxThreads : Nat) :
    (∀ rest buffer ev, recv maxSize ((false, ev) :: rest) buffer = RecvOutcome.dropped) ∧
    (∀ rest tc ev, accept maxThreads ((false, tc, ev) :: rest) = AcceptOutcome.exitLoop) ∧
    (∀ (script script' : List (Bool × SendEvent)) (sentBytes total : Nat),
        script.map Prod.snd = script'.map Prod.snd →
        send script sentBytes total = send script' sentBytes total) := by
  refine ⟨?_, ?_, ?_⟩
  · intro rest buffer ev
    simp [recv]
  · intro rest tc ev
    simp [accept]
  · intro script
    induction script with
    | nil =>
      intro script' sentBytes total hmap
      have : script' = [] := by
        cases script' with
        | nil => rfl
        | cons a l => simp at hmap
      rw [this]
    | cons head rest ih =>
      intro script' sentBytes total hmap
      obtain ⟨b, ev⟩ := head
      cases script' with
      | nil => simp at hmap
      | cons head' rest' =>
        obtain ⟨b', ev'⟩ := head'
        simp at hmap
        obtain ⟨hev, hrest⟩ := hmap
        subst hev
        by_cases hlt : sentBytes < total
        · cases ev with
          | sent n => simp [send, hlt, ih rest' _ _ hrest]
          | wouldBlock => simp [send, hlt, ih rest' _ _ hrest]
          | hardError => simp [send, hlt]
        · simp [send, hlt]

/-- C8 witness: a cleared flag drops the read loop and exits the accept
loop, while the write loop's outcome is unchanged by flag history. -/
theorem running_flag_polling_witness :
    recv 100 [(false, RecvEvent.data "X")] "" = RecvOutcome.dropped ∧
    accept 32 [(false, 0, AcceptEvent.ok)] = AcceptOutcome.exitLoop ∧
    ([(false, SendEvent.sent 3)].map Prod.snd = [(true, SendEvent.sent 3)].map Prod.snd ∧
     send [(false, SendEvent.sent 3)] 0 3 = send [(true, SendEvent.sent 3)] 0 3) :=
  ⟨(running_flag_polling 100 32).1 [] "" (RecvEvent.data "X"),
   (running_flag_polling 100 32).2.1 [] 0 AcceptEvent.ok,
   by decide,
   (running_flag_polling 100 32).2.2 [(false, SendEvent.sent 3)]
     [(true, SendEvent.sent 3)] 0 3 (by decide)⟩

theorem substAllAux_fuel (pat rep : List Char) :
    ∀ (f g : Nat) (s : List Char), s.length ≤ f → s.length ≤ g →
      substAllAux pat rep f s = substAllAux pat rep g s := by
  intro f
  induction f with
  | zero =>
    intro g s hf _
    have hs : s = [] := List.eq_nil_of_length_eq_zero (Nat.le_zero.mp hf)
    subst hs
    cases g <;> rfl
  | succ f ih =>
    intro g s hf hg
    cases s with
    | nil => cases g <;> rfl
    | cons c t =>
      cases g with
      | zero => simp at hg
      | succ g' =>
        simp only [substAllAux]
        by_cases hp : pat ≠ [] ∧ pat.isPrefixOf (c :: t)
        · rw [if_pos hp, if_pos hp]
          congr 1
          have hplen : 0 < pat.length := List.length_pos.mpr hp.1
          apply ih
          · simp only [List.length_drop, List.length_cons]
            simp only [List.length_cons] at hf
            omega
          · simp only [List.length_drop, List.length_cons]
            simp only [List.length_cons] at hg
            omega
        · rw [if_neg hp, if_neg hp]
          congr 1
          apply ih
          · simp only [List.length_cons] at hf
            omega
          · simp only [List.length_cons] at hg
            omega

theorem substAll_cons (pat rep : List Char) (c : Char) (s : List Char) :
    substAll pat rep (c :: s) =
      if pat ≠ [] ∧ pat.isPrefixOf (c :: s) then
        rep ++ substAll pat rep ((c :: s).drop pat.length)
      else c :: substAll pat rep s := by
  show substAllAux pat rep (c :: s).length (c :: s) = _
  rw [List.length_cons]
  simp only [substAllAux]
  by_cases hp : pat ≠ [] ∧ pat.isPrefixOf (c :: s)
  · rw [if_pos hp, if_pos hp]
    congr 1
    apply substAllAux_fuel
    · have hplen : 0 < pat.length := List.length_pos.mpr hp.1
      simp only [List.length_drop, List.length_cons]
      omega
    · exact Nat.le_refl _
  · rw [if_neg hp, if_neg hp]
    rfl

theorem substAll_append_left (pat rep : List Char) (c0 : Char) (pt : List Char)
    (hpat : pat = c0 :: pt) :
    ∀ (u w : List Char), c0 ∉ u →
      substAll pat rep (u ++ w) = u ++ substAll pat rep w := by
  subst hpat
  intro u
  induction u with
  | nil =>
    intro w _
    rfl
  | cons a u' ih =>
    intro w hmem
    have ha : c0 ≠ a := by
      intro he
      exact hmem (by rw [he]; exact List.mem_cons_self a u')
    have hbeq : (c0 == a) = false := beq_eq_false_iff_ne.mpr ha
    have hpre : (c0 :: pt).isPrefixOf (a :: (u' ++ w)) = false := by
      simp [List.isPrefixOf_cons₂, hbeq]
    have hnc : ¬((c0 :: pt) ≠ [] ∧ (c0 :: pt).isPrefixOf (a :: (u' ++ w)) = true) := by
      intro hc
      rw [hpre] at hc
      exact absurd hc.2 (by decide)
    show substAll (c0 :: pt) rep (a :: (u' ++ w)) = (a :: u') ++ substAll (c0 :: pt) rep w
    rw [substAll_cons, if_neg hnc, ih w (fun hc => hmem (List.mem_cons_of_mem a hc))]
    rfl

theorem substAll_nil (pat rep : List Char) : substAll pat rep [] = [] := rfl

theorem substAll_id_no_head (pat rep : List Char) (c0 : Char) (pt : List Char)
    (hpat : pat = c0 :: pt) (s : List Char) (h : c0 ∉ s) :
    substAll pat rep s = s := by
  have := substAll_append_left pat rep c0 pt hpat s [] h
  simpa [substAll_nil] using this

theorem substAll_occurrence (pat rep w : List Char) (h : pat ≠ []) :
    substAll pat rep (pat ++ w) = rep ++ substAll pat rep w := by
  cases pat with
  | nil => exact absurd rfl h
  | cons p0 pt =>
    show substAll (p0 :: pt) rep (p0 :: (pt ++ w)) = _
    rw [substAll_cons, if_pos]
    · congr 1
      rw [show p0 :: (pt ++ w) = (p0 :: pt) ++ w from rfl, List.drop_left]
    · refine ⟨h, ?_⟩
      rw [show p0 :: (pt ++ w) = (p0 :: pt) ++ w from rfl]
      exact List.isPrefixOf_iff_prefix.mpr (List.prefix_append _ _)

theorem substAll_id_of_not_occurs (pat rep : List Char) :
    ∀ s, occursIn pat s = false → substAll pat rep s = s := by
  intro s
  induction s with
  | nil => intro _; rfl
  | cons c t ih =>
    intro h
    simp only [occursIn, Bool.or_eq_false_iff] at h
    rw [substAll_cons, if_neg]
    · rw [ih h.2]
    · intro hc
      rw [h.1] at hc
      exact absurd hc.2 (by decide)

theorem substAll_step_mismatch (pat rep : List Char) (c : Char) (s : List Char)
    (h : pat.isPrefixOf (c :: s) = false) :
    substAll pat rep (c :: s) = c :: substAll pat rep s := by
  rw [substAll_cons, if_neg]
  intro hc
  rw [h] at hc
  exact absurd hc.2 (by decide)

theorem scPat_not_prefix_em (w : List Char) :
    scPat.isPrefixOf (emPat ++ w) = false := by
  rw [show scPat = '\x7b' :: 's' :: "tatus_code\x7d".toList from rfl,
      show emPat ++ w = '\x7b' :: 'e' :: ("rror_message\x7d".toList ++ w) from rfl]
  have h1 : ('\x7b' == '\x7b') = true := by decide
  have h2 : ('s' == 'e') = false := by decide
  simp [List.isPrefixOf_cons₂, h1, h2]

theorem pyFormat_toList (tpl statusText msg : String) :
    (pyFormat tpl statusText msg).toList =
      substAll emPat msg.toList (substAll scPat statusText.toList tpl.toList) := rfl

theorem pyFormat_template (tpl : String) (u v1 v2 : List Char) (statusText msg : String)
    (htpl : tpl.toList = u ++ scPat ++ v1 ++ emPat ++ v2)
    (hu : '\x7b' ∉ u) (hv1 : '\x7b' ∉ v1) (hv2 : '\x7b' ∉ v2)
    (hst : '\x7b' ∉ statusText.toList) :
    (pyFormat tpl statusText msg).toList =
      u ++ statusText.toList ++ v1 ++ msg.toList ++ v2 := by
  rw [pyFormat_toList, htpl]
  simp only [List.append_assoc]
  rw [substAll_append_left scPat statusText.toList '\x7b' "status_code\x7d".toList rfl u _ hu]
  rw [substAll_occurrence scPat statusText.toList _ (by decide)]
  rw [substAll_append_left scPat statusText.toList '\x7b' "status_code\x7d".toList rfl v1 _ hv1]
  rw [show emPat ++ v2 = '\x7b' :: ("error_message\x7d".toList ++ v2) from rfl]
  rw [substAll_step_mismatch scPat statusText.toList '\x7b' _
      (by rw [show ('\x7b' : Char) :: ("error_message\x7d".toList ++ v2) =
                emPat ++ v2 from rfl]; exact scPat_not_prefix_em v2)]
  rw [substAll_append_left scPat statusText.toList '\x7b' "status_code\x7d".toList rfl
      "error_message\x7d".toList v2 (by decide)]
  rw [substAll_id_no_head scPat statusText.toList '\x7b' "status_code\x7d".toList rfl v2 hv2]
  rw [show ('\x7b' : Char) :: ("error_message\x7d".toList ++ v2) = emPat ++ v2 from rfl]
  rw [substAll_append_left emPat msg.toList '\x7b' "error_message\x7d".toList rfl u _ hu]
  rw [substAll_append_left emPat msg.toList '\x7b' "error_message\x7d".toList rfl
      statusText.toList _ hst]
  rw [substAll_append_left emPat msg.toList '\x7b' "error_message\x7d".toList rfl v1 _ hv1]
  rw [substAll_occurrence emPat msg.toList _ (by decide)]
  rw [substAll_id_no_head emPat msg.toList '\x7b' "error_message\x7d".toList rfl v2 hv2]

/-- C9: for a GET request to an uncataloged path, with `/err/response`
cataloged and its template containing the two single-brace placeholders,
the handler produces status 404 and a body that is exactly the template
text with `404 Not Found` substituted for the status placeholder and the
human-readable message for the message placeholder — the body thus
textually embeds the exact status code and message, and consists of
nothing beyond template text, the status string and the message (no stack
traces, no server-side filesystem paths). -/
theorem not_found_templated (fm : List (String × Container)) (req : Request)
    (c : Container) (u v1 v2 : List Char)
    (herr : List.lookup "/err/response" fm = some c)
    (hmiss : List.lookup req.path fm = none)
    (htpl : c.uncompressed.data.toList = u ++ scPat ++ v1 ++ emPat ++ v2)
    (hu : '\x7b' ∉ u) (hv1 : '\x7b' ∉ v1) (hv2 : '\x7b' ∉ v2) :
    ∃ r, handle_get fm req = some r ∧ r.status = 404 ∧
      r.data.toList =
        u ++ "404 Not Found".toList ++ v1 ++ (errMsg req.path).toList ++ v2 := by
  refine ⟨⟨STATUS_CODE_NOT_FOUND, [],
           pyFormat c.uncompressed.data "404 Not Found" (errMsg req.path)⟩, ?_, rfl, ?_⟩
  · simp [handle_get, hmiss, herr]
  · exact pyFormat_template c.uncompressed.data u v1 v2 "404 Not Found"
      (errMsg req.path) htpl hu hv1 hv2 (by decide)

/-- C9 witness: the templated not-found behaviour at a concrete catalog
holding a concrete error template and a request for `/missing`. -/
theorem not_found_templated_witness :
    (List.lookup "/err/response"
       [("/err/response",
         ({ uncompressed :=
              { filetype := "text/html",
                data := "<h1>{status_code}</h1><p>{error_message}</p>" },
            brotli_compressed := { filetype := "", data := "" },
            gzip_compressed := { filetype := "", data := "" },
            compressed := false } : Container))] =
       some ({ uncompressed :=
                 { filetype := "text/html",
                   data := "<h1>{status_code}</h1><p>{error_message}</p>" },
               brotli_compressed := { filetype := "", data := "" },
               gzip_compressed := { filetype := "", data := "" },
               compressed := false } : Container) ∧
     List.lookup "/missing"
       [("/err/response",
         ({ uncompressed :=
              { filetype := "text/html",
                data := "<h1>{status_code}</h1><p>{error_message}</p>" },
            brotli_compressed := { filetype := "", data := "" },
            gzip_compressed := { filetype := "", data := "" },
            compressed := false } : Container))] = none ∧
     "<h1>{status_code}</h1><p>{error_message}</p>".toList =
       "<h1>".toList ++ scPat ++ "</h1><p>".toList ++ emPat ++ "</p>".toList ∧
     '\x7b' ∉ "<h1>".toList ∧ '\x7b' ∉ "</h1><p>".toList ∧ '\x7b' ∉ "</p>".toList) ∧
    (∃ r, handle_get
        [("/err/response",
          ({ uncompressed :=
               { filetype := "text/html",
                 data := "<h1>{status_code}</h1><p>{error_message}</p>" },
             brotli_compressed := { filetype := "", data := "" },
             gzip_compressed := { filetype := "", data := "" },
             compressed := false } : Container))]
        { type := "GET", path := "/missing", acceptEncoding := "" } = some r ∧
      r.status = 404 ∧
      r.data.toList =
        "<h1>".toList ++ "404 Not Found".toList ++ "</h1><p>".toList ++
          (errMsg "/missing").toList ++ "</p>".toList) :=
  ⟨⟨by decide, by decide, by decide, by decide, by decide, by decide⟩,
   not_found_templated
     [("/err/response",
       ({ uncompressed :=
            { filetype := "text/html",
              data := "<h1>{status_code}</h1><p>{error_message}</p>" },
          brotli_compressed := { filetype := "", data := "" },
          gzip_compressed := { filetype := "", data := "" },
          compressed := false } : Container))]
     { type := "GET", path := "/missing", acceptEncoding := "" }
     { uncompressed :=
         { filetype := "text/html",
           data := "<h1>{status_code}</h1><p>{error_message}</p>" },
       brotli_compressed := { filetype := "", data := "" },
       gzip_compressed := { filetype := "", data := "" },
       compressed := false }
     "<h1>".toList "</h1><p>".toList "</p>".toList
     (by decide) (by decide) (by decide) (by decide) (by decide) (by decide)⟩

theorem substAll_getLast (pat : List Char) (d : Char) (hpat : pat.getLast? = some d) :
    ∀ (n : Nat) (p : List Char), p.length ≤ n → ∀ c : Char, c ≠ d →
      p.getLast? = some c → (substAll pat [] p).getLast? = some c := by
  intro n
  induction n with
  | zero =>
    intro p hp c hc hlast
    have hnil : p = [] := List.eq_nil_of_length_eq_zero (Nat.le_zero.mp hp)
    subst hnil
    simp at hlast
  | succ n ih =>
    intro p hp c hc hlast
    cases p with
    | nil => simp at hlast
    | cons a t =>
      rw [substAll_cons]
      by_cases hcond : pat ≠ [] ∧ pat.isPrefixOf (a :: t)
      · rw [if_pos hcond, List.nil_append]
        have hpre : pat <+: (a :: t) := List.isPrefixOf_iff_prefix.mp hcond.2
        obtain ⟨w, hw⟩ := hpre
        have hdrop : (a :: t).drop pat.length = w := by
          rw [← hw]
          exact List.drop_left _ _
        rw [hdrop]
        cases w with
        | nil =>
          rw [List.append_nil] at hw
          rw [hw] at hpat
          rw [hlast] at hpat
          injection hpat with he
          exact absurd he hc
        | cons w0 wt =>
          have hlw : (w0 :: wt).getLast? = some c := by
            rw [← hw, List.getLast?_append] at hlast
            cases hwl : (w0 :: wt).getLast? with
            | none => simp at hwl
            | some x =>
              rw [hwl] at hlast
              simp [Option.or] at hlast
              rw [hlast]
          have hwlen : (w0 :: wt).length ≤ n := by
            have hplen : 0 < pat.length := List.length_pos.mpr hcond.1
            have hlen2 : pat.length + (w0 :: wt).length = t.length + 1 := by
              have := congrArg List.length hw
              simpa [List.length_append] using this
            simp only [List.length_cons] at hp hlen2 ⊢
            omega
          exact ih (w0 :: wt) hwlen c hc hlw
      · rw [if_neg hcond]
        cases t with
        | nil =>
          simp at hlast
          rw [substAll_nil]
          simp [hlast]
        | cons b t' =>
          have hlt : (b :: t').getLast? = some c := by
            rw [← List.getLast?_cons_cons]
            exact hlast
          have hlen : (b :: t').length ≤ n := by
            simp only [List.length_cons] at hp ⊢
            omega
          have hres := ih (b :: t') hlen c hc hlt
          cases hX : substAll pat [] (b :: t') with
          | nil =>
            rw [hX] at hres
            simp at hres
          | cons x xt =>
            rw [hX] at hres
            rw [List.getLast?_cons_cons]
            exact hres

theorem expandEntry_skip (fs : FS) (ce : ConfigEntry)
    (h1 : existsFS fs ce.path = false)
    (h2 : existsFS fs (ce.path.take (ce.path.length - 2)) = false) :
    expandEntry fs ce = [] := by
  simp [expandEntry, h1, h2]

theorem buildPathMap_skips (fs : FS) (cfg1 cfg2 : List ConfigEntry) (ce : ConfigEntry)
    (h : expandEntry fs ce = []) :
    buildPathMap fs (cfg1 ++ ce :: cfg2) = buildPathMap fs (cfg1 ++ cfg2) := by
  unfold buildPathMap
  rw [List.foldl_append, List.foldl_append, List.foldl_cons]
  congr 1
  simp [h]

theorem expandEntry_wildcard_key (fs : FS) (ce : ConfigEntry) (rel p : List Char)
    (hstar : ce.key.getLast? = some '*')
    (hex : ¬(existsFS fs ce.path = false ∧
             existsFS fs (ce.path.take (ce.path.length - 2)) = false))
    (hp : p ∈ listPathFS fs (ce.path.take (ce.path.length - 2)))
    (hrel : p = ce.path.take (ce.path.length - 2) ++ '/' :: rel)
    (hocc : occursIn (ce.path.take (ce.path.length - 2) ++ ['/']) rel = false) :
    (ce.key.dropLast ++ rel, ({ path := p, compress := ce.compress } : EntryBase)) ∈
      expandEntry fs ce := by
  have hsub : substAll (ce.path.take (ce.path.length - 2) ++ ['/']) [] p = rel := by
    rw [hrel]
    rw [show ce.path.take (ce.path.length - 2) ++ '/' :: rel =
          (ce.path.take (ce.path.length - 2) ++ ['/']) ++ rel by simp]
    rw [substAll_occurrence _ _ _ (by simp), List.nil_append]
    exact substAll_id_of_not_occurs _ _ rel hocc
  unfold expandEntry
  rw [if_neg hex, if_pos hstar]
  refine List.mem_map.mpr ⟨p, hp, ?_⟩
  dsimp only
  rw [hsub]

theorem mem_keys_of_lookup_isSome {β : Type} (m : List (List Char × β)) (k : List Char)
    (h : (List.lookup k m).isSome = true) : k ∈ m.map Prod.fst := by
  obtain ⟨q, hq, he⟩ := List.lookup_isSome_iff.mp h
  exact List.mem_map.mpr ⟨q, hq, (eq_of_beq he).symm⟩

theorem keys_insertPM (m : List (List Char × EntryBase)) (k : List Char) (v : EntryBase) :
    (insertPM m k v).map Prod.fst = m.map Prod.fst ∨
    (insertPM m k v).map Prod.fst = m.map Prod.fst ++ [k] := by
  unfold insertPM
  by_cases h : (List.lookup k m).isSome = true
  · left
    rw [if_pos h, List.map_map]
    apply List.map_congr_left
    intro kv _
    by_cases hk : kv.1 = k
    · simp [Function.comp, hk]
    · simp [Function.comp, hk]
  · right
    rw [if_neg h, List.map_append]
    rfl

theorem mem_keys_insert_foldl :
    ∀ (es : List (List Char × EntryBase)) (m : List (List Char × EntryBase)) (k : List Char),
      k ∈ (es.foldl (fun m kv => insertPM m kv.1 kv.2) m).map Prod.fst →
      k ∈ m.map Prod.fst ∨ ∃ kv ∈ es, k = kv.1 := by
  intro es
  induction es with
  | nil =>
    intro m k h
    rw [List.foldl_nil] at h
    exact Or.inl h
  | cons kv0 es ih =>
    intro m k h
    rw [List.foldl_cons] at h
    rcases ih _ k h with h1 | h2
    · rcases keys_insertPM m kv0.1 kv0.2 with he | he
      · rw [he] at h1
        exact Or.inl h1
      · rw [he] at h1
        rcases List.mem_append.mp h1 with ha | hb
        · exact Or.inl ha
        · exact Or.inr ⟨kv0, List.mem_cons_self _ _, by simpa using hb⟩
    · obtain ⟨kv, hkv, hk⟩ := h2
      exact Or.inr ⟨kv, List.mem_cons_of_mem _ hkv, hk⟩

theorem mem_keys_buildPathMap (fs : FS) :
    ∀ (cfg : List ConfigEntry) (m0 : List (List Char × EntryBase)) (k : List Char),
      k ∈ (cfg.foldl (fun m ce => (expandEntry fs ce).foldl
            (fun m kv => insertPM m kv.1 kv.2) m) m0).map Prod.fst →
      k ∈ m0.map Prod.fst ∨ ∃ ce ∈ cfg, ∃ kv ∈ expandEntry fs ce, k = kv.1 := by
  intro cfg
  induction cfg with
  | nil =>
    intro m0 k h
    rw [List.foldl_nil] at h
    exact Or.inl h
  | cons ce cfg ih =>
    intro m0 k h
    rw [List.foldl_cons] at h
    rcases ih _ k h with h1 | h2
    · rcases mem_keys_insert_foldl _ _ _ h1 with ha | hb
      · exact Or.inl ha
      · obtain ⟨kv, hkv, hk⟩ := hb
        exact Or.inr ⟨ce, List.mem_cons_self _ _, kv, hkv, hk⟩
    · obtain ⟨ce', hce, rest⟩ := h2
      exact Or.inr ⟨ce', List.mem_cons_of_mem _ hce, rest⟩

theorem expandEntry_key_shape (fs : FS) (ce : ConfigEntry)
    (hfs : ∀ f ∈ fs.map Prod.fst, f ≠ [] ∧ f.getLast? ≠ some '*' ∧ f.getLast? ≠ some '/') :
    ∀ kv ∈ expandEntry fs ce, kv.1.getLast? ≠ some '*' := by
  intro kv hkv
  unfold expandEntry at hkv
  by_cases hex : existsFS fs ce.path = false ∧
      existsFS fs (ce.path.take (ce.path.length - 2)) = false
  · rw [if_pos hex] at hkv
    simp at hkv
  · rw [if_neg hex] at hkv
    by_cases hstar : ce.key.getLast? = some '*'
    · rw [if_pos hstar] at hkv
      obtain ⟨p, hp, heq⟩ := List.mem_map.mp hkv
      have hpmem : p ∈ fs.map Prod.fst := by
        unfold listPathFS at hp
        by_cases hfile : isFileFS fs (ce.path.take (ce.path.length - 2)) = true
        · rw [if_pos hfile] at hp
          simp at hp
          subst hp
          exact mem_keys_of_lookup_isSome fs _ hfile
        · rw [if_neg hfile] at hp
          exact List.mem_of_mem_filter hp
      obtain ⟨hpne, hpstar, hpslash⟩ := hfs p hpmem
      obtain ⟨cl, hcl⟩ : ∃ cl, p.getLast? = some cl := by
        cases hpl : p.getLast? with
        | none => exact absurd (List.getLast?_eq_none_iff.mp hpl) hpne
        | some x => exact ⟨x, rfl⟩
      have hcl_star : cl ≠ '*' := fun he => hpstar (by rw [hcl, he])
      have hcl_slash : cl ≠ '/' := fun he => hpslash (by rw [hcl, he])
      have hres := substAll_getLast (ce.path.take (ce.path.length - 2) ++ ['/']) '/'
        (List.getLast?_concat _) p.length p (Nat.le_refl _) cl hcl_slash hcl
      subst heq
      intro hkstar
      rw [List.getLast?_append, hres] at hkstar
      simp [Option.or] at hkstar
      exact hcl_star hkstar
    · rw [if_neg hstar] at hkv
      simp at hkv
      subst hkv
      exact hstar

theorem addHeaders_keys (fs : FS) :
    ∀ (m : List (List Char × EntryBase)) (m' : List (List Char × Entry)),
      addHeaders fs m = some m' → m'.map Prod.fst = m.map Prod.fst := by
  intro m
  induction m with
  | nil =>
    intro m' h
    simp only [addHeaders, Option.some.injEq] at h
    subst h
    rfl
  | cons kv m ih =>
    intro m' h
    simp only [addHeaders] at h
    cases hf : List.lookup kv.2.path fs with
    | none =>
      rw [hf] at h
      simp at h
    | some d =>
      rw [hf] at h
      cases hrest : addHeaders fs m with
      | none =>
        rw [hrest] at h
        simp at h
      | some rest' =>
        rw [hrest] at h
        simp only [Option.some.injEq] at h
        subst h
        simp only [List.map_cons]
        rw [ih rest' hrest]

/-- C6 counterexample: with the directory `www` containing the file
`www/www/a.txt` and the wildcard entry `/s/*` targeting `www/*`, the
produced catalog key is `/s/a.txt` — Python `str.replace` removes every
occurrence of `www/`, not only the leading one — and not the claimed
`<prefix>/<relative-file-path>`, which would be `/s/www/a.txt`. -/
theorem wildcard_key_cex :
    (generate_path_map [("www/www/a.txt".toList, [104])]
       [{ key := "/s/*".toList, path := "www/*".toList, compress := false }]).map
      (List.map Prod.fst) = some ["/s/a.txt".toList] ∧
    ("/s/a.txt".toList : List Char) ≠ "/s/www/a.txt".toList := by
  constructor <;> decide

/-- C6 (amended): configured entries whose target fails both existence
checks (`os.path.exists(path)` and `os.path.exists(path[:-2])`) are
skipped while the remaining entries are cataloged unchanged; every file
below a wildcard entry's target yields one catalog entry whose key is the
prefix followed by the file path with every occurrence of
`<target-dir>/` removed — which equals `<prefix>/<relative-file-path>`
whenever the relative path does not itself contain `<target-dir>/` again;
and no catalog key ends with the wildcard marker provided no cataloged
file's path is empty or ends in `*` or `/`. -/
theorem generate_path_map_amended (fs : FS) :
    (∀ cfg1 cfg2 ce, existsFS fs ce.path = false →
        existsFS fs (ce.path.take (ce.path.length - 2)) = false →
        buildPathMap fs (cfg1 ++ ce :: cfg2) = buildPathMap fs (cfg1 ++ cfg2)) ∧
    (∀ ce rel p, ce.key.getLast? = some '*' →
        ¬(existsFS fs ce.path = false ∧
          existsFS fs (ce.path.take (ce.path.length - 2)) = false) →
        p ∈ listPathFS fs (ce.path.take (ce.path.length - 2)) →
        p = ce.path.take (ce.path.length - 2) ++ '/' :: rel →
        occursIn (ce.path.take (ce.path.length - 2) ++ ['/']) rel = false →
        (ce.key.dropLast ++ rel, ({ path := p, compress := ce.compress } : EntryBase)) ∈
          expandEntry fs ce) ∧
    (∀ cfg m k, (∀ f ∈ fs.map Prod.fst,
          f ≠ [] ∧ f.getLast? ≠ some '*' ∧ f.getLast? ≠ some '/') →
        generate_path_map fs cfg = some m → k ∈ m.map Prod.fst →
        k.getLast? ≠ some '*') := by
  refine ⟨?_, ?_, ?_⟩
  · intro cfg1 cfg2 ce h1 h2
    exact buildPathMap_skips fs cfg1 cfg2 ce (expandEntry_skip fs ce h1 h2)
  · intro ce rel p hstar hex hp hrel hocc
    exact expandEntry_wildcard_key fs ce rel p hstar hex hp hrel hocc
  · intro cfg m k hfs hgen hk
    unfold generate_path_map at hgen
    rw [addHeaders_keys fs _ _ hgen] at hk
    unfold buildPathMap at hk
    rcases mem_keys_buildPathMap fs cfg [] k hk with h0 | ⟨ce, _, kv, hkv, hkeq⟩
    · simp at h0
    · rw [hkeq]
      exact expandEntry_key_shape fs ce hfs kv hkv

/-- C6 witness: the amended catalog-construction behaviour at a concrete
filesystem holding `www/a.txt` — a missing-target entry is skipped while
the rest is cataloged, a wildcard file is keyed `<prefix>/<relative>`
when the target-dir marker does not reoccur, and the generated key ends
in `t`, not in the wildcard marker. -/
theorem generate_path_map_amended_witness :
    (existsFS [("www/a.txt".toList, [104])] "www/missing.html".toList = false ∧
     existsFS [("www/a.txt".toList, [104])]
       ("www/missing.html".toList.take ("www/missing.html".toList.length - 2)) = false ∧
     buildPathMap [("www/a.txt".toList, [104])]
       ([{ key := "/a".toList, path := "www/a.txt".toList, compress := false }] ++
        { key := "/b".toList, path := "www/missing.html".toList, compress := false } :: []) =
     buildPathMap [("www/a.txt".toList, [104])]
       ([{ key := "/a".toList, path := "www/a.txt".toList, compress := false }] ++ [])) ∧
    (({ key := "/s/*".toList, path := "www/*".toList,
        compress := false } : ConfigEntry).key.getLast? = some '*' ∧
     ¬(existsFS [("www/a.txt".toList, [104])] "www/*".toList = false ∧
       existsFS [("www/a.txt".toList, [104])]
         ("www/*".toList.take ("www/*".toList.length - 2)) = false) ∧
     "www/a.txt".toList ∈
       listPathFS [("www/a.txt".toList, [104])]
         ("www/*".toList.take ("www/*".toList.length - 2)) ∧
     "www/a.txt".toList =
       "www/*".toList.take ("www/*".toList.length - 2) ++ '/' :: "a.txt".toList ∧
     occursIn ("www/*".toList.take ("www/*".toList.length - 2) ++ ['/'])
       "a.txt".toList = false ∧
     ("/s/*".toList.dropLast ++ "a.txt".toList,
      ({ path := "www/a.txt".toList, compress := false } : EntryBase)) ∈
       expandEntry [("www/a.txt".toList, [104])]
         { key := "/s/*".toList, path := "www/*".toList, compress := false }) ∧
    ((∀ f ∈ ([("www/a.txt".toList, [104])] : FS).map Prod.fst,
        f ≠ [] ∧ f.getLast? ≠ some '*' ∧ f.getLast? ≠ some '/') ∧
     generate_path_map [("www/a.txt".toList, [104])]
       [{ key := "/s/*".toList, path := "www/*".toList, compress := false }] =
       some [("/s/a.txt".toList,
              (⟨"www/a.txt".toList, false,
                [("Content-Type", HVal.str "text/plain"),
                 ("Content-Length", HVal.nat 1)]⟩ : Entry))] ∧
     "/s/a.txt".toList ∈
       ([("/s/a.txt".toList,
          (⟨"www/a.txt".toList, false,
            [("Content-Type", HVal.str "text/plain"),
             ("Content-Length", HVal.nat 1)]⟩ : Entry))].map Prod.fst) ∧
     ("/s/a.txt".toList : List Char).getLast? ≠ some '*') :=
  ⟨⟨by decide, by decide,
    (generate_path_map_amended [("www/a.txt".toList, [104])]).1
      [{ key := "/a".toList, path := "www/a.txt".toList, compress := false }] []
      { key := "/b".toList, path := "www/missing.html".toList, compress := false }
      (by decide) (by decide)⟩,
   ⟨by decide, by decide, by decide, by decide, by decide,
    (generate_path_map_amended [("www/a.txt".toList, [104])]).2.1
      { key := "/s/*".toList, path := "www/*".toList, compress := false }
      "a.txt".toList "www/a.txt".toList
      (by decide) (by decide) (by decide) (by decide) (by decide)⟩,
   ⟨by decide, by decide, by decide,
    (generate_path_map_amended [("www/a.txt".toList, [104])]).2.2
      [{ key := "/s/*".toList, path := "www/*".toList, compress := false }]
      [("/s/a.txt".toList,
        (⟨"www/a.txt".toList, false,
          [("Content-Type", HVal.str "text/plain"),
           ("Content-Length", HVal.nat 1)]⟩ : Entry))]
      "/s/a.txt".toList
      (by decide) (by decide) (by decide)⟩⟩

end HTTPy
